import Mathlib

/-!
SerialPortPrinter: the serial printer protocol driver.

A shallow embedding of `SerialPortManager.cpp` (checksum, framing, the
sequential batch transmitter, status decoding, session open/close and the
asynchronous error handler), followed by the properties proved about it.

Conventions of the embedding.

* A `char` is kept as its bit pattern, a number below 256.  On the platform
  the program is built for, `char` is signed: the integral promotion that
  precedes `^`, `&` and `==` sign-extends it to a 32-bit `int`, kept here as
  its two's-complement bit pattern below `2 ^ 32`.  Converting an `int` back to
  `char` keeps the low 8 bits.
* `QSerialPort` is outside the program.  What its calls answer (the byte count
  of `write`, the result of `waitForReadyRead`, the bytes of `readAll`, the
  result of `open`, the text of `errorString`) is supplied to the operations
  from outside and is universally quantified in the theorems.  Only the
  open/closed state and the applied settings are tracked: `open` returning true
  opens the port, `close` closes it.
* Every call that reaches the device, every `emit serialPortError(...)` and
  every `mErrorBuffer.clear()` is recorded, in program order, in a trace.
* A slot invoked by a signal (`readData` on `readyRead`, `handleError` on
  `errorOccurred`) is an operation of its own.
-/

namespace SerialPortPrinter

/-! ## Bytes and the C++ integer conversions -/

/-- A `char`, as its 8-bit pattern. -/
abbrev Byte := Fin 256

/-- The expression `static_cast<char>(x)` for an `int` x: the low 8 bits. -/
def toChar (x : Nat) : Byte := ⟨x % 256, Nat.mod_lt x (by decide)⟩

/-- Integral promotion of a signed `char` to a 32-bit `int` (two's-complement
bit pattern): a byte with the top bit set is sign-extended. -/
def promote (c : Byte) : Nat :=
  if c.val < 128 then c.val else c.val + 0xFFFFFF00

/-! ## `SerialPortManager::getCheckSum` -/

/-- Body of `getCheckSum`: `out` starts as `static_cast<char>(0xFF)` and every
`ch` of `data` is folded in by `out = out ^ ch`, where both operands are
promoted to `int` and the result is converted back to `char`. -/
def getCheckSum (data : List Byte) : Byte :=
  data.foldl (fun out ch => toChar (promote out ^^^ promote ch)) (toChar 0xFF)

/-! ## Frame construction in `SerialPortManager::writeCommands` -/

/-- Lines 36-40 of `writeCommands`: the `QByteArray` handed to `writeData` for
one command, built by the same five steps. -/
def frameOf (command : List Byte) : List Byte :=
  let data : List Byte := [0x1B, 0x50]          -- QByteArray data("\x1bP")
  let data := data ++ command                    -- data += command
  let data := data ++ [getCheckSum command]      -- data += getCheckSum(command)
  let data := data ++ [0x1B, 0x5C]               -- data += "\x1b\\"
  let data := data ++ [0x10]                     -- data += '\x10'
  data

/-! ## The device, the session and the trace -/

/-- The enum `QSerialPort::SerialPortError` of Qt, the argument type of
`handleError`. -/
inductive SerialPortError where
  | NoError
  | DeviceNotFoundError
  | PermissionError
  | OpenError
  | ParityError
  | FramingError
  | BreakConditionError
  | WriteError
  | ReadError
  | ResourceError
  | UnsupportedOperationError
  | UnknownError
  | TimeoutError
  | NotOpenError
  deriving DecidableEq, Repr

/-- The fields of `SettingsDialog::Settings` that `openSerialPort` applies; the
Qt enums are kept as their integer values. -/
structure Settings where
  name : String
  baudRate : Int
  dataBits : Int
  parity : Int
  stopBits : Int
  flowControl : Int
  deriving DecidableEq, Repr

/-- What is observable of a run, in program order. -/
inductive Event where
  /-- the six setters of `openSerialPort`, lines 12-17 -/
  | configure (settings : Settings)
  /-- the call `mSerial.open(QIODevice::ReadWrite)` and its result -/
  | deviceOpen (opened : Bool)
  /-- the call `mSerial.close()` -/
  | deviceClose
  /-- the call `mSerial.write(data)` and the byte count it returned -/
  | write (data : List Byte) (numOfBytesWritten : Int)
  /-- the call `mSerial.waitForReadyRead(1000)` and its result -/
  | waitForReadyRead (ready : Bool)
  /-- the call `mSerial.readAll()` and the bytes it returned -/
  | readAll (data : List Byte)
  /-- the statement `mErrorBuffer.clear()` -/
  | clearBuffer
  /-- the statement `emit serialPortError(errors)` -/
  | serialPortError (errors : List String)
  deriving DecidableEq, Repr

/-- The member `mSerial` as far as the program observes it. -/
structure QSerialPort where
  isOpen : Bool
  settings : Option Settings
  deriving DecidableEq, Repr

/-- The object `SerialPortManager`: its two members and the trace so far. -/
structure SerialPortManager where
  mSerial : QSerialPort
  mErrorBuffer : List String
  trace : List Event
  deriving DecidableEq, Repr

/-- What the device answers during one call of `writeData`: the return value
of `write`, the return value of `waitForReadyRead(1000)` and, when that is
true, the bytes `readAll` returns. -/
structure PortReply where
  numOfBytesWritten : Int
  ready : Bool
  received : List Byte
  deriving DecidableEq, Repr

/-- A manager right after construction: port closed, buffer empty, nothing
observed yet. -/
def SerialPortManager.fresh : SerialPortManager :=
  { mSerial := { isOpen := false, settings := none },
    mErrorBuffer := [],
    trace := [] }

/-- Append one event to the trace. -/
def record (e : Event) (s : SerialPortManager) : SerialPortManager :=
  { s with trace := s.trace ++ [e] }

/-- The statement `emit serialPortError(errors)`. -/
def emitSerialPortError (errors : List String) (s : SerialPortManager) : SerialPortManager :=
  record (.serialPortError errors) s

/-! ## `SerialPortManager::readData` -/

/-- First literal appended by `readData` (bit 0). -/
def mechanismError : String := "Błąd mechanizmu drukującego"

/-- Second literal appended by `readData` (bit 1). -/
def paperOut : String := "Brak papieru"

/-- Lines 70-78 of `readData`: the local list `errors` after the loop over the
received bytes.  `byte & mask`, `byte & 0x1` and the comparison with `key` are
computed on the promoted operands. -/
def decodeErrors (data : List Byte) : List String :=
  let key := toChar 0b01110000
  let mask := toChar 0b11111000
  data.foldl (fun errors byte =>
    if (promote byte &&& promote mask) = promote key then
      let errors := if (promote byte &&& 0x1) ≠ 0 then errors ++ [mechanismError] else errors
      let errors := if (promote byte &&& 0x2) ≠ 0 then errors ++ [paperOut] else errors
      errors
    else errors) []

/-- The slot `readData`, for the bytes `data` that `mSerial.readAll()` returns. -/
def readData (data : List Byte) (s : SerialPortManager) : SerialPortManager :=
  let s := record (.readAll data) s
  let errors := decodeErrors data
  if !errors.isEmpty then
    let s := { s with mErrorBuffer := s.mErrorBuffer ++ errors }
    emitSerialPortError errors s
  else s

/-! ## `SerialPortManager::writeData` -/

/-- The text `QString("Did not write all bytes. Wrote %1 byte(s) from %2.")`
after `.arg(numOfBytesWritten).arg(data.size())`. -/
def writeIncomplete (numOfBytesWritten size : Int) : String :=
  "Did not write all bytes. Wrote " ++ toString numOfBytesWritten ++ " byte(s) from "
    ++ toString size ++ "."

/-- Body of `writeData(data)`, with the device answering `reply`. -/
def writeData (reply : PortReply) (data : List Byte) (s : SerialPortManager) :
    SerialPortManager :=
  let s := record (.write data reply.numOfBytesWritten) s
  let s :=
    if reply.numOfBytesWritten ≠ (data.length : Int) then
      emitSerialPortError [writeIncomplete reply.numOfBytesWritten data.length] s
    else s
  let s := record (.waitForReadyRead reply.ready) s
  if reply.ready then readData reply.received s else s

/-! ## `SerialPortManager::writeCommands` -/

/-- The `for` loop of `writeCommands` over the commands not yet visited; `i` is
the index of the next command and `port i` what the device answers while
command `i` is written. -/
def writeCommandsLoop (port : Nat → PortReply) :
    Nat → List (List Byte) → SerialPortManager → SerialPortManager
  | _, [], s => s
  | i, command :: rest, s =>
    if !s.mErrorBuffer.isEmpty then s
    else writeCommandsLoop port (i + 1) rest (writeData (port i) (frameOf command) s)

/-- Body of `writeCommands(commandsList)`. -/
def writeCommands (port : Nat → PortReply) (commandsList : List (List Byte))
    (s : SerialPortManager) : SerialPortManager :=
  let s := record .clearBuffer { s with mErrorBuffer := [] }
  writeCommandsLoop port 0 commandsList s

/-! ## Session: `openSerialPort`, `closeSerialPort`, `isPortOpen`, `handleError` -/

/-- Body of `openSerialPort(settings)`; `opened` is what `mSerial.open` returns
and `diagnostic` the text of `mSerial.errorString()` when it fails. -/
def openSerialPort (settings : Settings) (opened : Bool) (diagnostic : String)
    (s : SerialPortManager) : Bool × SerialPortManager :=
  let s := record (.configure settings)
    { s with mSerial := { s.mSerial with settings := some settings } }
  let s := record (.deviceOpen opened) s
  if opened then
    (true, { s with mSerial := { s.mSerial with isOpen := true } })
  else
    (false, emitSerialPortError [diagnostic] s)

/-- Body of `closeSerialPort()`. -/
def closeSerialPort (s : SerialPortManager) : SerialPortManager :=
  if s.mSerial.isOpen then
    record .deviceClose { s with mSerial := { s.mSerial with isOpen := false } }
  else s

/-- Body of `isPortOpen()`. -/
def isPortOpen (s : SerialPortManager) : Bool := s.mSerial.isOpen

/-- Body of `handleError(error)`, the slot of `errorOccurred`; `diagnostic` is
the text `mSerial.errorString()` returns on line 90. -/
def handleError (error : SerialPortError) (diagnostic : String) (s : SerialPortManager) :
    SerialPortManager :=
  if error ≠ .NoError then
    let s := if error = .ResourceError then closeSerialPort s else s
    emitSerialPortError [diagnostic] s
  else s

/-! ## Vocabulary of the properties -/

/-- XOR of all bytes of a payload, as unsigned values. -/
def xorAll (data : List Byte) : Nat :=
  data.foldl (fun acc b => acc ^^^ b.val) 0

/-- The frames handed to `mSerial.write`, in order. -/
def writtenFrames (trace : List Event) : List (List Byte) :=
  trace.filterMap (fun e => match e with
    | .write data _ => some data
    | _ => none)

/-- The error reports emitted through `serialPortError`, in order. -/
def reports (trace : List Event) : List (List String) :=
  trace.filterMap (fun e => match e with
    | .serialPortError errors => some errors
    | _ => none)

/-- The write-incomplete reports of a batch whose replies carry no status
error: one single-entry report for each command whose write returned a byte
count other than the length of its frame, in order; `i` is the index of the
first command of the list. -/
def incompleteReports (port : Nat → PortReply) : Nat → List (List Byte) → List (List String)
  | _, [] => []
  | i, command :: rest =>
    (if (port i).numOfBytesWritten ≠ ((frameOf command).length : Int) then
        [[writeIncomplete (port i).numOfBytesWritten (frameOf command).length]]
      else [])
      ++ incompleteReports port (i + 1) rest

/-- A batch of three one-byte commands. -/
def threeCommands : List (List Byte) := [[0x41], [0x42], [0x43]]

/-- A device that accepts all 7 bytes of every frame except the second, of
which it accepts 3, and that never replies. -/
def secondWriteShort (i : Nat) : PortReply :=
  if i = 1 then { numOfBytesWritten := 3, ready := false, received := [] }
  else { numOfBytesWritten := 7, ready := false, received := [] }

/-- The status errors a reply decodes to: those of its bytes when data arrived
within the timeout, none otherwise. -/
def replyErrors (r : PortReply) : List String :=
  if r.ready then decodeErrors r.received else []

/-- What one status byte stands for, on its unsigned value: nothing unless the
top five bits are `01110`, else bit 0 (mechanism error) then bit 1 (paper out). -/
def statusOf (b : Byte) : List String :=
  if b.val &&& 0b11111000 ≠ 0b01110000 then []
  else (if b.val.testBit 0 then [mechanismError] else [])
    ++ (if b.val.testBit 1 then [paperOut] else [])

/-- Whether a `readData` call decoded a status error since the last
`mErrorBuffer.clear()` (or since construction when there was none). -/
def statusFiredSinceClear (trace : List Event) : Bool :=
  trace.foldl (fun fired e => match e with
    | .clearBuffer => false
    | .readAll data => fired || !(decodeErrors data).isEmpty
    | _ => fired) false

/-- The invariant of the error buffer: it is empty exactly when no `readData`
call decoded a status error since the last clear. -/
def BufferInvariant (s : SerialPortManager) : Prop :=
  s.mErrorBuffer = [] ↔ statusFiredSinceClear s.trace = false

/-- The states a manager can be in: constructed, then any sequence of its
operations with any arguments and any answers of the device. -/
inductive Reachable : SerialPortManager → Prop where
  | fresh : Reachable SerialPortManager.fresh
  | openSerialPort {s : SerialPortManager} (settings : Settings) (opened : Bool)
      (diagnostic : String) :
      Reachable s → Reachable (openSerialPort settings opened diagnostic s).2
  | closeSerialPort {s : SerialPortManager} :
      Reachable s → Reachable (closeSerialPort s)
  | writeCommands {s : SerialPortManager} (port : Nat → PortReply)
      (commandsList : List (List Byte)) :
      Reachable s → Reachable (writeCommands port commandsList s)
  | writeData {s : SerialPortManager} (reply : PortReply) (data : List Byte) :
      Reachable s → Reachable (writeData reply data s)
  | readData {s : SerialPortManager} (data : List Byte) :
      Reachable s → Reachable (readData data s)
  | handleError {s : SerialPortManager} (error : SerialPortError) (diagnostic : String) :
      Reachable s → Reachable (handleError error diagnostic s)

/-! ## Bytes: promotion and truncation -/

theorem promote_mod (c : Byte) : promote c % 256 = c.val := by
  unfold promote
  have := c.isLt
  split <;> omega

theorem xor_mod_256 (x y : Nat) : (x ^^^ y) % 256 = (x % 256) ^^^ (y % 256) := by
  apply Nat.eq_of_testBit_eq
  intro i
  have h : (256 : Nat) = 2 ^ 8 := by norm_num
  simp only [h, Nat.testBit_mod_two_pow, Nat.testBit_xor]
  by_cases hi : i < 8 <;> simp [hi]

theorem toChar_promote_xor (a b : Byte) :
    (toChar (promote a ^^^ promote b)).val = a.val ^^^ b.val := by
  show (promote a ^^^ promote b) % 256 = _
  rw [xor_mod_256, promote_mod, promote_mod]

theorem xor_foldl_init (data : List Byte) (a : Nat) :
    data.foldl (fun acc b => acc ^^^ b.val) a = a ^^^ xorAll data := by
  unfold xorAll
  induction data generalizing a with
  | nil => simp
  | cons b rest ih =>
    simp only [List.foldl_cons]
    rw [ih (a ^^^ b.val), ih (0 ^^^ b.val), Nat.zero_xor, Nat.xor_assoc]

theorem xorAll_append (l₁ l₂ : List Byte) :
    xorAll (l₁ ++ l₂) = xorAll l₁ ^^^ xorAll l₂ := by
  show (l₁ ++ l₂).foldl _ 0 = _
  rw [List.foldl_append, xor_foldl_init]
  rfl

theorem xorAll_cons (b : Byte) (l : List Byte) : xorAll (b :: l) = b.val ^^^ xorAll l := by
  show (b :: l).foldl _ 0 = _
  rw [List.foldl_cons, xor_foldl_init, Nat.zero_xor]

theorem checksum_foldl (data : List Byte) (out : Byte) :
    (data.foldl (fun out ch => toChar (promote out ^^^ promote ch)) out).val
      = out.val ^^^ xorAll data := by
  induction data generalizing out with
  | nil => simp [xorAll]
  | cons b rest ih =>
    rw [List.foldl_cons, ih, toChar_promote_xor, xorAll_cons, Nat.xor_assoc]

theorem getCheckSum_val (data : List Byte) : (getCheckSum data).val = 0xFF ^^^ xorAll data := by
  unfold getCheckSum
  rw [checksum_foldl]
  rfl

/-! ## Effect of the operations on the buffer, the port and the trace -/

theorem readData_mErrorBuffer (data : List Byte) (s : SerialPortManager) :
    (readData data s).mErrorBuffer = s.mErrorBuffer ++ decodeErrors data := by
  unfold readData
  cases h : decodeErrors data <;> simp [record, emitSerialPortError]

theorem readData_trace (data : List Byte) (s : SerialPortManager) :
    (readData data s).trace
      = s.trace ++ .readAll data ::
          (if decodeErrors data = [] then [] else [.serialPortError (decodeErrors data)]) := by
  unfold readData
  cases h : decodeErrors data <;> simp [record, emitSerialPortError]

theorem writeData_mErrorBuffer (reply : PortReply) (data : List Byte) (s : SerialPortManager) :
    (writeData reply data s).mErrorBuffer = s.mErrorBuffer ++ replyErrors reply := by
  unfold writeData replyErrors
  by_cases hr : reply.ready = true <;>
    by_cases hn : reply.numOfBytesWritten = (data.length : Int) <;>
    simp [hr, hn, readData_mErrorBuffer, record, emitSerialPortError]

theorem writeData_writtenFrames (reply : PortReply) (data : List Byte) (s : SerialPortManager) :
    writtenFrames (writeData reply data s).trace = writtenFrames s.trace ++ [data] := by
  unfold writeData
  by_cases hr : reply.ready = true <;>
    by_cases hn : reply.numOfBytesWritten = (data.length : Int) <;>
    by_cases hd : decodeErrors reply.received = [] <;>
    simp [hr, hn, hd, readData_trace, record, emitSerialPortError, writtenFrames]

theorem writeData_reports (reply : PortReply) (data : List Byte) (s : SerialPortManager) :
    reports (writeData reply data s).trace
      = reports s.trace
        ++ (if reply.numOfBytesWritten ≠ (data.length : Int) then
              [[writeIncomplete reply.numOfBytesWritten data.length]] else [])
        ++ (if replyErrors reply = [] then [] else [replyErrors reply]) := by
  unfold writeData replyErrors
  by_cases hr : reply.ready = true <;>
    by_cases hn : reply.numOfBytesWritten = (data.length : Int) <;>
    by_cases hd : decodeErrors reply.received = [] <;>
    simp [hr, hn, hd, readData_trace, record, emitSerialPortError, reports]

theorem writeCommandsLoop_stopped (port : Nat → PortReply) (i : Nat)
    (commandsList : List (List Byte)) (s : SerialPortManager) (h : s.mErrorBuffer ≠ []) :
    writeCommandsLoop port i commandsList s = s := by
  cases commandsList with
  | nil => rfl
  | cons command rest =>
    cases hb : s.mErrorBuffer with
    | nil => exact absurd hb h
    | cons e es => simp [writeCommandsLoop, hb]

theorem writeCommandsLoop_step (port : Nat → PortReply) (i : Nat) (command : List Byte)
    (rest : List (List Byte)) (s : SerialPortManager) (h : s.mErrorBuffer = []) :
    writeCommandsLoop port i (command :: rest) s
      = writeCommandsLoop port (i + 1) rest (writeData (port i) (frameOf command) s) := by
  simp [writeCommandsLoop, h]

/-! ## Checksum and frame -/

/-- C4: for every payload, `getCheckSum` read as an unsigned byte is 0xFF XOR
the XOR of all payload bytes (bytes of 0x80 and above included, which the code
sign-extends before the XOR and truncates after), and it is 0xFF for the
empty payload. -/
theorem getCheckSum_eq_xor_fold :
    (∀ P : List Byte, (getCheckSum P).val = 0xFF ^^^ xorAll P)
      ∧ (getCheckSum []).val = 0xFF :=
  ⟨getCheckSum_val, by decide⟩

/-- C2: the byte string built for a payload `P` is `1B 50`, then `P` verbatim,
then `getCheckSum P`, then `1B 5C 10`; this is what a batch holding only `P`
hands to `mSerial.write`; for the empty payload it is `1B 50 FF 1B 5C 10`. -/
theorem frameOf_wire_format :
    (∀ P : List Byte,
        frameOf P = [0x1B, 0x50] ++ P ++ [getCheckSum P] ++ [0x1B, 0x5C, 0x10])
      ∧ (∀ (port : Nat → PortReply) (P : List Byte) (s : SerialPortManager),
        writtenFrames (writeCommands port [P] s).trace
          = writtenFrames s.trace
            ++ [[0x1B, 0x50] ++ P ++ [getCheckSum P] ++ [0x1B, 0x5C, 0x10]])
      ∧ frameOf [] = [0x1B, 0x50, 0xFF, 0x1B, 0x5C, 0x10] := by
  refine ⟨fun P => by simp [frameOf], ?_, by decide⟩
  intro port P s
  have hclear : (record .clearBuffer { s with mErrorBuffer := [] }).mErrorBuffer = [] := rfl
  have hframes : writtenFrames (record .clearBuffer { s with mErrorBuffer := [] }).trace
      = writtenFrames s.trace := by
    simp [record, writtenFrames]
  show writtenFrames (writeCommandsLoop port 0 [P] _).trace = _
  rw [writeCommandsLoop_step _ _ _ _ _ hclear]
  show writtenFrames (writeData _ _ _).trace = _
  rw [writeData_writtenFrames, hframes]
  simp [frameOf]

/-- C3 (as stated, refuted): the frame of the empty payload has 6 bytes, not
0 + 5. -/
theorem frameOf_empty_length_counterexample :
    (frameOf []).length ≠ ([] : List Byte).length + 5 := by
  decide

/-- C3 (amended): for every payload `P` the frame built by `writeCommands` has
length `len(P) + 6`: two bytes of preamble, the payload, one checksum byte and
three bytes of terminator. -/
theorem frameOf_length_eq_payload_plus_six (P : List Byte) : (frameOf P).length = P.length + 6 := by
  simp [frameOf]

/-- C7: payloads of equal length that differ in exactly one position have
different checksums, and the XOR of all bytes of a payload together with its
checksum is 0xFF. -/
theorem getCheckSum_detects_single_byte_error :
    (∀ (P Q : List Byte) (i : Nat), P.length = Q.length → i < P.length →
        P[i]? ≠ Q[i]? → (∀ j, j ≠ i → P[j]? = Q[j]?) → getCheckSum P ≠ getCheckSum Q)
      ∧ (∀ P : List Byte, xorAll (P ++ [getCheckSum P]) = 0xFF) := by
  constructor
  · intro P Q i hlen hi hne hrest hcs
    have hiQ : i < Q.length := hlen ▸ hi
    have hP : P = P.take i ++ P[i] :: P.drop (i + 1) := by
      rw [← List.drop_eq_getElem_cons hi, List.take_append_drop]
    have hQ : Q = Q.take i ++ Q[i] :: Q.drop (i + 1) := by
      rw [← List.drop_eq_getElem_cons hiQ, List.take_append_drop]
    have htake : P.take i = Q.take i := by
      apply List.ext_getElem?
      intro j
      by_cases hj : j < i
      · rw [List.getElem?_take_of_lt hj, List.getElem?_take_of_lt hj]
        exact hrest j (by omega)
      · rw [List.getElem?_take_eq_none (by omega), List.getElem?_take_eq_none (by omega)]
    have hdrop : P.drop (i + 1) = Q.drop (i + 1) := by
      apply List.ext_getElem?
      intro j
      rw [List.getElem?_drop, List.getElem?_drop]
      exact hrest _ (by omega)
    have hv : (getCheckSum P).val = (getCheckSum Q).val := by rw [hcs]
    rw [getCheckSum_val, getCheckSum_val, Nat.xor_right_inj, hP, hQ, xorAll_append,
      xorAll_append, xorAll_cons, xorAll_cons, htake, hdrop, Nat.xor_right_inj,
      Nat.xor_left_inj] at hv
    apply hne
    rw [List.getElem?_eq_getElem hi, List.getElem?_eq_getElem hiQ]
    exact congrArg some (Fin.ext hv)
  · intro P
    rw [xorAll_append, xorAll_cons, getCheckSum_val]
    show xorAll P ^^^ ((0xFF ^^^ xorAll P) ^^^ xorAll []) = 0xFF
    have : xorAll ([] : List Byte) = 0 := rfl
    rw [this, Nat.xor_zero, Nat.xor_comm 0xFF, Nat.xor_cancel_left]

/-! ## Status decoding -/

set_option maxRecDepth 100000

theorem status_pattern_iff (b : Byte) :
    (promote b &&& promote (toChar 0b11111000)) = promote (toChar 0b01110000)
      ↔ ¬ (b.val &&& 0b11111000 ≠ 0b01110000) := by
  revert b
  decide

theorem status_bit0_iff (b : Byte) : (promote b &&& 0x1) ≠ 0 ↔ b.val.testBit 0 = true := by
  revert b
  decide

theorem status_bit1_iff (b : Byte) : (promote b &&& 0x2) ≠ 0 ↔ b.val.testBit 1 = true := by
  revert b
  decide

theorem high_byte_no_status (b : Byte) (h : 0x80 ≤ b.val) : statusOf b = [] := by
  have : b.val &&& 0b11111000 ≠ 0b01110000 := by
    revert b
    decide
  simp [statusOf, this]

theorem decode_foldl (data : List Byte) (errors : List String) :
    data.foldl (fun errors byte =>
      if (promote byte &&& promote (toChar 0b11111000)) = promote (toChar 0b01110000) then
        let errors := if (promote byte &&& 0x1) ≠ 0 then errors ++ [mechanismError] else errors
        let errors := if (promote byte &&& 0x2) ≠ 0 then errors ++ [paperOut] else errors
        errors
      else errors) errors = errors ++ data.flatMap statusOf := by
  induction data generalizing errors with
  | nil => simp
  | cons b rest ih =>
    rw [List.foldl_cons, ih, List.flatMap_cons, ← List.append_assoc]
    congr 1
    unfold statusOf
    by_cases hp : b.val &&& 0b11111000 ≠ 0b01110000
    · rw [if_neg (fun h => (status_pattern_iff b).mp h hp), if_pos hp, List.append_nil]
    · rw [if_pos ((status_pattern_iff b).mpr hp), if_neg hp]
      dsimp only
      by_cases h0 : b.val.testBit 0 = true <;> by_cases h1 : b.val.testBit 1 = true
      · rw [if_pos ((status_bit0_iff b).mpr h0), if_pos ((status_bit1_iff b).mpr h1),
          if_pos h0, if_pos h1, List.append_assoc]
      · rw [if_pos ((status_bit0_iff b).mpr h0),
          if_neg (fun h => h1 ((status_bit1_iff b).mp h)), if_pos h0, if_neg h1, List.append_nil]
      · rw [if_neg (fun h => h0 ((status_bit0_iff b).mp h)),
          if_pos ((status_bit1_iff b).mpr h1), if_neg h0, if_pos h1, List.nil_append]
      · rw [if_neg (fun h => h0 ((status_bit0_iff b).mp h)),
          if_neg (fun h => h1 ((status_bit1_iff b).mp h)), if_neg h0, if_neg h1,
          List.append_nil, List.append_nil]

theorem decodeErrors_eq_flatMap (data : List Byte) :
    decodeErrors data = data.flatMap statusOf := by
  unfold decodeErrors
  rw [decode_foldl]
  rfl

/-- C5: what `readData` decodes from the received bytes, and appends to the
ErrorBuffer, is the in-order concatenation over the bytes of: nothing when the
top five bits are not `01110`, otherwise the mechanism error if bit 0 is set
followed by paper-out if bit 1 is set.  So 0x71, 0x72, 0x73 give one, one and
both errors, 0x00, 0x70 and 0x74 give none, and no byte of 0x80 or above gives
any. -/
theorem readData_decodes_status_bytes :
    (∀ data : List Byte, decodeErrors data = data.flatMap statusOf)
      ∧ (∀ (data : List Byte) (s : SerialPortManager),
          (readData data s).mErrorBuffer = s.mErrorBuffer ++ data.flatMap statusOf)
      ∧ decodeErrors [0x71] = [mechanismError]
      ∧ decodeErrors [0x72] = [paperOut]
      ∧ decodeErrors [0x73] = [mechanismError, paperOut]
      ∧ decodeErrors [0x00] = [] ∧ decodeErrors [0x70] = [] ∧ decodeErrors [0x74] = []
      ∧ decodeErrors [0xF1] = []
      ∧ (∀ b : Byte, 0x80 ≤ b.val → decodeErrors [b] = []) := by
  refine ⟨decodeErrors_eq_flatMap, ?_, by decide, by decide, by decide, by decide, by decide,
    by decide, by decide, ?_⟩
  · intro data s
    rw [readData_mErrorBuffer, decodeErrors_eq_flatMap]
  · intro b hb
    rw [decodeErrors_eq_flatMap]
    simp [high_byte_no_status b hb]

/-! ## The batch loop -/

theorem writeCommandsLoop_frames (port : Nat → PortReply) (i : Nat)
    (commandsList : List (List Byte)) (s : SerialPortManager) (h : s.mErrorBuffer = []) :
    ∃ m, m ≤ commandsList.length
      ∧ writtenFrames (writeCommandsLoop port i commandsList s).trace
          = writtenFrames s.trace ++ (commandsList.take m).map frameOf
      ∧ (∀ j, j + 1 < m → replyErrors (port (i + j)) = [])
      ∧ (m < commandsList.length → ∃ k, m = k + 1 ∧ replyErrors (port (i + k)) ≠ [])
      ∧ (commandsList ≠ [] → 0 < m) := by
  induction commandsList generalizing i s with
  | nil => exact ⟨0, by simp [writeCommandsLoop]⟩
  | cons command rest ih =>
    rw [writeCommandsLoop_step _ _ _ _ _ h]
    have hbuf := writeData_mErrorBuffer (port i) (frameOf command) s
    rw [h, List.nil_append] at hbuf
    by_cases hr : replyErrors (port i) = []
    · obtain ⟨m, hm, hfr, hnone, hstop, -⟩ := ih (i + 1) _ (hbuf.trans hr)
      refine ⟨m + 1, by simpa using hm, ?_, ?_, ?_, fun _ => Nat.succ_pos m⟩
      · rw [hfr, writeData_writtenFrames]
        simp
      · intro j hj
        cases j with
        | zero => exact hr
        | succ j =>
          have := hnone j (by omega)
          rwa [show i + 1 + j = i + (j + 1) by omega] at this
      · intro hlt
        obtain ⟨k, hk, hne⟩ := hstop (by simpa using hlt)
        refine ⟨k + 1, by omega, ?_⟩
        rwa [show i + 1 + k = i + (k + 1) by omega] at hne
    · rw [writeCommandsLoop_stopped _ _ _ _ (by rw [hbuf]; exact hr)]
      refine ⟨1, by simp, ?_, ?_, ?_, fun _ => Nat.one_pos⟩
      · rw [writeData_writtenFrames]
        simp
      · intro j hj
        omega
      · intro _
        exact ⟨0, rfl, hr⟩

theorem writeCommandsLoop_no_status (port : Nat → PortReply) (i : Nat)
    (commandsList : List (List Byte)) (s : SerialPortManager) (h : s.mErrorBuffer = [])
    (hstatus : ∀ j, replyErrors (port j) = []) :
    (writeCommandsLoop port i commandsList s).mErrorBuffer = []
      ∧ writtenFrames (writeCommandsLoop port i commandsList s).trace
          = writtenFrames s.trace ++ commandsList.map frameOf
      ∧ reports (writeCommandsLoop port i commandsList s).trace
          = reports s.trace ++ incompleteReports port i commandsList := by
  induction commandsList generalizing i s with
  | nil => simp [writeCommandsLoop, incompleteReports, h]
  | cons command rest ih =>
    rw [writeCommandsLoop_step _ _ _ _ _ h]
    have hbuf := writeData_mErrorBuffer (port i) (frameOf command) s
    rw [h, hstatus i, List.append_nil] at hbuf
    obtain ⟨h1, h2, h3⟩ := ih (i + 1) _ hbuf
    refine ⟨h1, ?_, ?_⟩
    · rw [h2, writeData_writtenFrames]
      simp
    · rw [h3, writeData_reports, hstatus i]
      simp [incompleteReports]

theorem incompleteReports_first (port : Nat → PortReply) (base : Nat)
    (commandsList : List (List Byte)) (i : Nat) (c : List Byte)
    (hc : commandsList[i]? = some c)
    (hshort : (port (base + i)).numOfBytesWritten ≠ ((frameOf c).length : Int))
    (hearlier : ∀ j d, j < i → commandsList[j]? = some d →
      (port (base + j)).numOfBytesWritten = ((frameOf d).length : Int)) :
    incompleteReports port base commandsList
      = [writeIncomplete (port (base + i)).numOfBytesWritten (frameOf c).length]
          :: incompleteReports port (base + i + 1) (commandsList.drop (i + 1)) := by
  induction commandsList generalizing base i with
  | nil => simp at hc
  | cons d rest ih =>
    cases i with
    | zero =>
      simp only [List.getElem?_cons_zero, Option.some.injEq] at hc
      subst hc
      simp only [Nat.add_zero] at hshort ⊢
      simp [incompleteReports, hshort]
    | succ i =>
      have hd := hearlier 0 d (Nat.succ_pos i) (by simp)
      simp only [Nat.add_zero] at hd
      have hrest := ih (base + 1) i (by simpa using hc)
        (by rwa [show base + 1 + i = base + (i + 1) by omega])
        (fun j e hj he => by
          have := hearlier (j + 1) e (by omega) (by simpa using he)
          rwa [show base + 1 + j = base + (j + 1) by omega])
      rw [show base + 1 + i + 1 = base + (i + 1) + 1 by omega,
        show base + 1 + i = base + (i + 1) by omega] at hrest
      simp [incompleteReports, hd, hrest]

theorem writeCommands_cleared (s : SerialPortManager) :
    (record .clearBuffer { s with mErrorBuffer := [] }).mErrorBuffer = []
      ∧ writtenFrames (record .clearBuffer { s with mErrorBuffer := [] }).trace
          = writtenFrames s.trace
      ∧ reports (record .clearBuffer { s with mErrorBuffer := [] }).trace = reports s.trace := by
  simp [record, writtenFrames, reports]

theorem secondWriteShort_no_status (j : Nat) : replyErrors (secondWriteShort j) = [] := by
  unfold secondWriteShort replyErrors
  split <;> rfl

/-- C6: on a non-empty command list the frames written are exactly the frames
of commands 0..k, in order and once each, where k is the least index whose
reply decodes to a status error, or the last index when no reply does,
whatever byte counts the writes report; on the empty list nothing is written
and the ErrorBuffer is empty afterwards, whatever it held before. -/
theorem writeCommands_writes_up_to_first_status_error (port : Nat → PortReply)
    (commandsList : List (List Byte)) (s : SerialPortManager) :
    (commandsList ≠ [] →
        ∃ k, k < commandsList.length
          ∧ writtenFrames (writeCommands port commandsList s).trace
              = writtenFrames s.trace ++ (commandsList.take (k + 1)).map frameOf
          ∧ (∀ j, j < k → replyErrors (port j) = [])
          ∧ (k + 1 < commandsList.length → replyErrors (port k) ≠ []))
      ∧ writtenFrames (writeCommands port [] s).trace = writtenFrames s.trace
      ∧ (writeCommands port [] s).mErrorBuffer = [] := by
  obtain ⟨hbuf, hfr, -⟩ := writeCommands_cleared s
  refine ⟨fun hne => ?_, hfr, hbuf⟩
  obtain ⟨m, hm, hframes, hnone, hstop, hpos⟩ :=
    writeCommandsLoop_frames port 0 commandsList _ hbuf
  have hm0 := hpos hne
  refine ⟨m - 1, by omega, ?_, ?_, ?_⟩
  · show writtenFrames (writeCommandsLoop port 0 commandsList _).trace = _
    rw [hframes, hfr, show m - 1 + 1 = m by omega]
  · intro j hj
    have := hnone j (by omega)
    rwa [Nat.zero_add] at this
  · intro hlt
    obtain ⟨k, hk, hne⟩ := hstop (by omega)
    rw [Nat.zero_add] at hne
    rwa [show m - 1 = k by omega]

/-- C1 (as stated, refuted): in a batch of three commands whose second write
reports 3 bytes of a 7-byte frame, with no other error and no reply, the third
command is written all the same and the ErrorBuffer is empty at the end. -/
theorem writeCommands_short_write_counterexample :
    (secondWriteShort 1).numOfBytesWritten ≠ ((frameOf [0x42]).length : Int)
      ∧ (secondWriteShort 0).numOfBytesWritten = ((frameOf [0x41]).length : Int)
      ∧ writtenFrames (writeCommands secondWriteShort threeCommands SerialPortManager.fresh).trace
          = [frameOf [0x41], frameOf [0x42], frameOf [0x43]]
      ∧ (writeCommands secondWriteShort threeCommands SerialPortManager.fresh).mErrorBuffer
          = [] := by
  decide

/-- C1 (amended): if the write of command i reports a byte count different
from the length of its frame, no earlier write did, and no reply carries a
status error, then `writeCommands` still writes every command of the batch in
order, the ErrorBuffer is empty at the end, and the reports emitted during the
batch start with exactly one single-entry report, the write-incomplete error
of command i, followed only by the write-incomplete reports of later
commands. -/
theorem writeCommands_short_write_reported_not_aborting (port : Nat → PortReply)
    (commandsList : List (List Byte)) (s : SerialPortManager) (i : Nat) (c : List Byte)
    (hc : commandsList[i]? = some c)
    (hshort : (port i).numOfBytesWritten ≠ ((frameOf c).length : Int))
    (hearlier : ∀ j d, j < i → commandsList[j]? = some d →
      (port j).numOfBytesWritten = ((frameOf d).length : Int))
    (hstatus : ∀ j, replyErrors (port j) = []) :
    writtenFrames (writeCommands port commandsList s).trace
        = writtenFrames s.trace ++ commandsList.map frameOf
      ∧ (writeCommands port commandsList s).mErrorBuffer = []
      ∧ reports (writeCommands port commandsList s).trace
          = reports s.trace
            ++ [writeIncomplete (port i).numOfBytesWritten (frameOf c).length]
              :: incompleteReports port (i + 1) (commandsList.drop (i + 1)) := by
  obtain ⟨hbuf, hfr, hrep⟩ := writeCommands_cleared s
  obtain ⟨h1, h2, h3⟩ := writeCommandsLoop_no_status port 0 commandsList _ hbuf hstatus
  have hfirst := incompleteReports_first port 0 commandsList i c hc
    (by rwa [Nat.zero_add])
    (fun j d hj hd => by rw [Nat.zero_add]; exact hearlier j d hj hd)
  rw [Nat.zero_add] at hfirst
  refine ⟨?_, h1, ?_⟩
  · show writtenFrames (writeCommandsLoop port 0 commandsList _).trace = _
    rw [h2, hfr]
  · show reports (writeCommandsLoop port 0 commandsList _).trace = _
    rw [h3, hrep, hfirst]

/-- Witness for C1 (amended): the batch of three commands whose second write
is short. -/
theorem writeCommands_short_write_witness :
    writtenFrames (writeCommands secondWriteShort threeCommands SerialPortManager.fresh).trace
        = writtenFrames SerialPortManager.fresh.trace ++ threeCommands.map frameOf
      ∧ (writeCommands secondWriteShort threeCommands SerialPortManager.fresh).mErrorBuffer = []
      ∧ reports (writeCommands secondWriteShort threeCommands SerialPortManager.fresh).trace
          = reports SerialPortManager.fresh.trace
            ++ [writeIncomplete (secondWriteShort 1).numOfBytesWritten (frameOf [0x42]).length]
              :: incompleteReports secondWriteShort (1 + 1) (threeCommands.drop (1 + 1)) :=
  writeCommands_short_write_reported_not_aborting secondWriteShort threeCommands
    SerialPortManager.fresh 1 [0x42] (by decide) (by decide)
    (fun j d hj hd => by
      have hj0 : j = 0 := by omega
      subst hj0
      have hd0 : d = [0x41] := by
        simp [threeCommands] at hd
        exact hd.symm
      subst hd0
      decide)
    secondWriteShort_no_status

/-! ## Session -/

/-- C8 (as stated, refuted): `NoError` is an error code other than
`ResourceError`, and `handleError` forwards no report for it. -/
theorem handleError_NoError_counterexample :
    SerialPortError.NoError ≠ SerialPortError.ResourceError
      ∧ reports (handleError .NoError "No error" SerialPortManager.fresh).trace = [] := by
  decide

/-- C8 (amended): on `ResourceError` the session is Closed afterwards and
exactly one report, carrying the device's diagnostic string, is forwarded; on
any other code except `NoError` the open/closed state is unchanged and exactly
one such report is forwarded; on `NoError` nothing changes and nothing is
forwarded. -/
theorem handleError_forwards_one_report (error : SerialPortError) (diagnostic : String)
    (s : SerialPortManager) :
    (error = .ResourceError →
        (handleError error diagnostic s).mSerial.isOpen = false
          ∧ reports (handleError error diagnostic s).trace = reports s.trace ++ [[diagnostic]])
      ∧ (error ≠ .ResourceError → error ≠ .NoError →
        (handleError error diagnostic s).mSerial.isOpen = s.mSerial.isOpen
          ∧ reports (handleError error diagnostic s).trace = reports s.trace ++ [[diagnostic]])
      ∧ (error = .NoError → handleError error diagnostic s = s) := by
  refine ⟨?_, ?_, ?_⟩
  · rintro rfl
    cases h : s.mSerial.isOpen <;>
      simp [handleError, closeSerialPort, emitSerialPortError, record, reports, h]
  · intro h1 h2
    simp [handleError, emitSerialPortError, record, reports, h1, h2]
  · rintro rfl
    simp [handleError]

/-- C9: `closeSerialPort` on a Closed session, a never opened one included,
changes nothing (no device close, no report, still Closed); on any session it
leaves the state Closed; calling it twice gives the same result as calling it
once. -/
theorem closeSerialPort_idempotent (s : SerialPortManager) :
    (s.mSerial.isOpen = false → closeSerialPort s = s)
      ∧ closeSerialPort SerialPortManager.fresh = SerialPortManager.fresh
      ∧ (closeSerialPort s).mSerial.isOpen = false
      ∧ closeSerialPort (closeSerialPort s) = closeSerialPort s := by
  cases h : s.mSerial.isOpen <;>
    simp [closeSerialPort, record, SerialPortManager.fresh, h]

/-! ## The ErrorBuffer invariant -/

theorem statusFired_snoc (t : List Event) (e : Event) :
    statusFiredSinceClear (t ++ [e])
      = match e with
        | .clearBuffer => false
        | .readAll data => statusFiredSinceClear t || !(decodeErrors data).isEmpty
        | _ => statusFiredSinceClear t := by
  simp [statusFiredSinceClear, List.foldl_append]

theorem BufferInvariant_record (e : Event) (s : SerialPortManager) (hclear : e ≠ .clearBuffer)
    (hread : ∀ data, e ≠ .readAll data) (h : BufferInvariant s) :
    BufferInvariant (record e s) := by
  unfold BufferInvariant at *
  cases e <;> simp_all [record, statusFired_snoc]

theorem BufferInvariant_mSerial (s : SerialPortManager) (p : QSerialPort)
    (h : BufferInvariant s) : BufferInvariant { s with mSerial := p } := h

theorem BufferInvariant_readData (data : List Byte) (s : SerialPortManager)
    (h : BufferInvariant s) : BufferInvariant (readData data s) := by
  unfold BufferInvariant at *
  unfold readData
  cases hd : decodeErrors data <;>
    simp_all [record, emitSerialPortError, statusFiredSinceClear, List.foldl_append]

theorem BufferInvariant_writeData (reply : PortReply) (data : List Byte) (s : SerialPortManager)
    (h : BufferInvariant s) : BufferInvariant (writeData reply data s) := by
  unfold writeData
  have h1 := BufferInvariant_record (.write data reply.numOfBytesWritten) s (by simp)
    (by simp) h
  have h2 : BufferInvariant
      (if reply.numOfBytesWritten ≠ (data.length : Int) then
        emitSerialPortError [writeIncomplete reply.numOfBytesWritten data.length]
          (record (.write data reply.numOfBytesWritten) s)
      else record (.write data reply.numOfBytesWritten) s) := by
    split
    · exact BufferInvariant_record _ _ (by simp) (by simp) h1
    · exact h1
  have h3 := BufferInvariant_record (.waitForReadyRead reply.ready) _ (by simp) (by simp) h2
  dsimp only
  split
  · exact BufferInvariant_readData _ _ h3
  · exact h3

theorem BufferInvariant_writeCommandsLoop (port : Nat → PortReply) (i : Nat)
    (commandsList : List (List Byte)) (s : SerialPortManager) (h : BufferInvariant s) :
    BufferInvariant (writeCommandsLoop port i commandsList s) := by
  induction commandsList generalizing i s with
  | nil => exact h
  | cons command rest ih =>
    unfold writeCommandsLoop
    split
    · exact h
    · exact ih _ _ (BufferInvariant_writeData _ _ _ h)

theorem BufferInvariant_writeCommands (port : Nat → PortReply)
    (commandsList : List (List Byte)) (s : SerialPortManager) :
    BufferInvariant (writeCommands port commandsList s) := by
  apply BufferInvariant_writeCommandsLoop
  simp [BufferInvariant, record, statusFired_snoc]

/-- C10: in every state reachable through the operations of the manager, the
ErrorBuffer is empty if and only if no `readData` call has decoded a status
error since the buffer was last cleared. -/
theorem errorBuffer_empty_iff_no_status_since_clear (s : SerialPortManager)
    (h : Reachable s) :
    s.mErrorBuffer = [] ↔ statusFiredSinceClear s.trace = false := by
  show BufferInvariant s
  induction h with
  | fresh => simp [BufferInvariant, SerialPortManager.fresh, statusFiredSinceClear]
  | @openSerialPort s₀ settings opened diagnostic _ ih =>
    have h1 := BufferInvariant_record (.configure settings) _ (by simp) (by simp)
      (BufferInvariant_mSerial s₀ { s₀.mSerial with settings := some settings } ih)
    have h2 := BufferInvariant_record (.deviceOpen opened) _ (by simp) (by simp) h1
    unfold openSerialPort
    cases opened
    · exact BufferInvariant_record _ _ (by simp) (by simp) h2
    · exact BufferInvariant_mSerial _ _ h2
  | closeSerialPort _ ih =>
    unfold closeSerialPort
    split
    · exact BufferInvariant_record _ _ (by simp) (by simp) (BufferInvariant_mSerial _ _ ih)
    · exact ih
  | writeCommands port commandsList _ _ => exact BufferInvariant_writeCommands _ _ _
  | writeData reply data _ ih => exact BufferInvariant_writeData _ _ _ ih
  | readData data _ ih => exact BufferInvariant_readData _ _ ih
  | @handleError s₀ error diagnostic _ ih =>
    have hclose : BufferInvariant (closeSerialPort s₀) := by
      unfold closeSerialPort
      split
      · exact BufferInvariant_record _ _ (by simp) (by simp) (BufferInvariant_mSerial _ _ ih)
      · exact ih
    unfold handleError
    split
    · dsimp only
      split
      · exact BufferInvariant_record _ _ (by simp) (by simp) hclose
      · exact BufferInvariant_record _ _ (by simp) (by simp) ih
    · exact ih

/-- Witness for C10: the state after a batch of two commands whose first reply
is the status byte 0x73. -/
theorem errorBuffer_invariant_witness :
    Reachable (writeCommands (fun _ => ⟨7, true, [0x73]⟩) [[0x41], [0x42]]
        SerialPortManager.fresh)
      ∧ ((writeCommands (fun _ => ⟨7, true, [0x73]⟩) [[0x41], [0x42]]
            SerialPortManager.fresh).mErrorBuffer = []
          ↔ statusFiredSinceClear (writeCommands (fun _ => ⟨7, true, [0x73]⟩)
              [[0x41], [0x42]] SerialPortManager.fresh).trace = false) :=
  ⟨Reachable.writeCommands _ _ Reachable.fresh,
    errorBuffer_empty_iff_no_status_since_clear _ (Reachable.writeCommands _ _ Reachable.fresh)⟩

end SerialPortPrinter
